import Mathlib

/-!
Verification of `spb/cli_core/commands/label_data.py` (spb-cli).

Shallow embedding of the bulk-transfer orchestrator: the per-item task
functions (`_upload_asset`, `_update_label`, `_download_worker`), the
download pagination driver (`LabelData.download` / `LabelData._count_labels`),
the summary-ratio computations, the error-table merge
(`LabelData._print_error_table`) and the shared multiprocessing result
structure (`manager.list([manager.dict()] * n)`).

Modelling conventions:
- Remote and filesystem collaborators are fields of an environment record,
  each returning `Except String _`; `Except.error e` models a Python
  exception with message `e`.  A task function that returns `Except.error`
  models an uncaught exception propagating to the pool executor.
- Python dicts (insertion ordered, last write wins, overwrite keeps the
  position of the key) are association lists `List (String × a)` mutated
  through `dictSet`.
- Python true division followed by `int(...)` truncation on non-negative
  counts is modelled by `Nat` floor division; Python `round(x, 2)` is
  modelled exactly on rationals; a `ZeroDivisionError` is modelled by
  `Except.error "ZeroDivisionError"`.
-/

namespace SpbCli

/-! ## Python dict as association list -/

/-- Keys of an association list, in insertion order. -/
def keysOf {a : Type} (m : List (String × a)) : List String := m.map Prod.fst

/-- Lookup (Python `m[k]` / `m.get(k)`): first binding of the key. -/
def lk {a : Type} : List (String × a) → String → Option a
  | [], _ => none
  | (k', v) :: t, k => if k' = k then some v else lk t k

/-- Python dict assignment `m[k] = v`: overwrite in place when the key is
present, append at the end otherwise. -/
def dictSet {a : Type} (m : List (String × a)) (k : String) (v : a) :
    List (String × a) :=
  if k ∈ keysOf m then m.map (fun p => if p.1 = k then (k, v) else p)
  else m ++ [(k, v)]

@[simp] theorem keysOf_nil {a : Type} : keysOf ([] : List (String × a)) = [] := rfl

@[simp] theorem keysOf_cons {a : Type} (p : String × a) (t : List (String × a)) :
    keysOf (p :: t) = p.1 :: keysOf t := rfl

@[simp] theorem keysOf_append {a : Type} (m m' : List (String × a)) :
    keysOf (m ++ m') = keysOf m ++ keysOf m' := by
  simp [keysOf]

@[simp] theorem lk_nil {a : Type} (k : String) : lk ([] : List (String × a)) k = none := rfl

theorem lk_cons {a : Type} (k' : String) (v : a) (t : List (String × a)) (k : String) :
    lk ((k', v) :: t) k = if k' = k then some v else lk t k := rfl

theorem lk_eq_none_iff {a : Type} (m : List (String × a)) (k : String) :
    lk m k = none ↔ k ∉ keysOf m := by
  induction m with
  | nil => simp
  | cons p t ih =>
    obtain ⟨k', v⟩ := p
    by_cases h : k' = k
    · subst h
      simp [lk_cons]
    · simp only [lk_cons, if_neg h, keysOf_cons, List.mem_cons, ih]
      constructor
      · intro hk hor
        rcases hor with h1 | h2
        · exact h h1.symm
        · exact hk h2
      · intro hk h2
        exact hk (Or.inr h2)

theorem lk_isSome_iff {a : Type} (m : List (String × a)) (k : String) :
    (lk m k).isSome ↔ k ∈ keysOf m := by
  rcases h : lk m k with _ | v
  · simp [(lk_eq_none_iff m k).mp h]
  · have : lk m k ≠ none := by simp [h]
    simp only [Option.isSome_some, true_iff]
    exact not_not.mp (fun hk => this ((lk_eq_none_iff m k).mpr hk))

theorem lk_append {a : Type} (m m' : List (String × a)) (k : String) :
    lk (m ++ m') k = match lk m k with | some v => some v | none => lk m' k := by
  induction m with
  | nil => simp
  | cons p t ih =>
    obtain ⟨k', v⟩ := p
    by_cases h : k' = k <;> simp [lk_cons, h, ih]

theorem keysOf_overwrite {a : Type} (m : List (String × a)) (k : String) (v : a) :
    keysOf (m.map (fun p => if p.1 = k then (k, v) else p)) = keysOf m := by
  induction m with
  | nil => rfl
  | cons p t ih =>
    by_cases h : p.1 = k <;> simp [h, ih]

theorem lk_overwrite_self {a : Type} (m : List (String × a)) (k : String) (v : a)
    (hmem : k ∈ keysOf m) :
    lk (m.map (fun p => if p.1 = k then (k, v) else p)) k = some v := by
  induction m with
  | nil => simp [keysOf] at hmem
  | cons p t ih =>
    obtain ⟨k', v'⟩ := p
    by_cases h : k' = k
    · simp [h, lk_cons]
    · have : k ∈ keysOf t := by
        rcases (by simpa using hmem : k = k' ∨ k ∈ keysOf t) with h1 | h2
        · exact absurd h1.symm h
        · exact h2
      simpa [h, lk_cons] using ih this

theorem lk_overwrite_ne {a : Type} (m : List (String × a)) (k k' : String) (v : a)
    (h : k' ≠ k) :
    lk (m.map (fun p => if p.1 = k then (k, v) else p)) k' = lk m k' := by
  induction m with
  | nil => simp
  | cons p t ih =>
    obtain ⟨k0, v0⟩ := p
    by_cases h0 : k0 = k
    · subst h0
      simp [lk_cons, Ne.symm h, ih]
    · simp [lk_cons, h0, ih]

theorem keysOf_dictSet {a : Type} (m : List (String × a)) (k : String) (v : a) :
    keysOf (dictSet m k v) = if k ∈ keysOf m then keysOf m else keysOf m ++ [k] := by
  unfold dictSet
  split
  · next hmem => simp [if_pos hmem, keysOf_overwrite]
  · next hmem => simp [hmem]

theorem mem_keysOf_dictSet {a : Type} (m : List (String × a)) (k k' : String) (v : a) :
    k' ∈ keysOf (dictSet m k v) ↔ k' ∈ keysOf m ∨ k' = k := by
  rw [keysOf_dictSet]
  split
  · next h =>
    constructor
    · exact Or.inl
    · rintro (h' | rfl)
      · exact h'
      · exact h
  · simp

theorem nodup_keysOf_dictSet {a : Type} (m : List (String × a)) (k : String) (v : a)
    (h : (keysOf m).Nodup) : (keysOf (dictSet m k v)).Nodup := by
  rw [keysOf_dictSet]
  split
  · exact h
  · next hmem => simpa [List.nodup_append] using ⟨h, hmem⟩

theorem lk_dictSet_self {a : Type} (m : List (String × a)) (k : String) (v : a) :
    lk (dictSet m k v) k = some v := by
  unfold dictSet
  split
  · next hmem => exact lk_overwrite_self m k v hmem
  · next hmem =>
    rw [lk_append]
    rw [(lk_eq_none_iff m k).mpr hmem]
    simp [lk_cons]

theorem lk_dictSet_ne {a : Type} (m : List (String × a)) (k k' : String) (v : a)
    (h : k' ≠ k) : lk (dictSet m k v) k' = lk m k' := by
  unfold dictSet
  split
  · exact lk_overwrite_ne m k k' v h
  · rw [lk_append]
    rcases h' : lk m k' with _ | v'
    · simp [lk_cons, Ne.symm h]
    · simp

theorem length_dictSet {a : Type} (m : List (String × a)) (k : String) (v : a) :
    (dictSet m k v).length = if k ∈ keysOf m then m.length else m.length + 1 := by
  unfold dictSet
  split <;> simp_all

/-! ## Pagination driver and count probe (`LabelData.download`, `LabelData._count_labels`) -/

/-- `LABEL_DESCRIBE_PAGE_SIZE = 10` (label_data.py line 23). -/
def LABEL_DESCRIBE_PAGE_SIZE : Nat := 10

/-- `NUM_MULTI_PROCESS = 4` (label_data.py line 22). -/
def NUM_MULTI_PROCESS : Nat := 4

/-- Page count computed by `LabelData.download` (line 114):
`int(label_count/P) if label_count % P == 0 else int(label_count/P)+1`.
`int(n/P)` on non-negative counts is floor division. -/
def pageLength (label_count : Nat) : Nat :=
  if label_count % LABEL_DESCRIBE_PAGE_SIZE = 0 then
    label_count / LABEL_DESCRIBE_PAGE_SIZE
  else
    label_count / LABEL_DESCRIBE_PAGE_SIZE + 1

/-- `LabelData._count_labels` (lines 96-108).  The probe result is the
`spb.run describe_label` total with page size 1; an exception from the probe
is caught, a warning is logged, and the count falls back to 0.  The returned
`Bool` records whether the warning branch ran. -/
def countLabels (probe : Except String Nat) : Nat × Bool :=
  match probe with
  | .ok n => (n, false)
  | .error _ => (0, true)

/-- Exact model of Python `round(x, 2)` on a rational intermediate value:
scale by 100, round to the nearest integer, scale back.  (Python rounds
half-to-even on floats; no claim in this development depends on the
tie-breaking rule, and no evaluated instance hits a tie.) -/
def roundTo2 (q : ℚ) : ℚ := (round (q * 100) : ℤ) / 100

/-- Python percentage expression `round(success/total*100, 2)` with true
division: raises `ZeroDivisionError` when `total = 0`. -/
def pyPct (success : ℤ) (total : Nat) : Except String ℚ :=
  if total = 0 then .error "ZeroDivisionError"
  else .ok (roundTo2 ((success : ℚ) / (total : ℚ) * 100))

/-- Data success ratio in `LabelData.upload_data` (line 65):
`round(success_data_count/len(asset_images)*100,2) if len(data_results[0]) != 0 else 100`.
The guard is on the size of the error store, not on the total. -/
def uploadDataPct (total storeLen : Nat) : Except String ℚ :=
  if storeLen ≠ 0 then pyPct ((total : ℤ) - (storeLen : ℤ)) total
  else .ok 100

/-- Label success ratio in `LabelData.upload_label` (line 91):
`round(success_label_count/len(labels_path)*100,2) if len(labels_path) != 0 else 100`.
Here the guard is on the total. -/
def uploadLabelPct (total storeLen : Nat) : Except String ℚ :=
  if total ≠ 0 then pyPct ((total : ℤ) - (storeLen : ℤ)) total
  else .ok 100

/-- Success ratio lines in `LabelData.download` (lines 138 and 140):
`round(label_success_count/label_count*100,2)` with no guard of any kind. -/
def downloadPct (label_count storeLen : Nat) : Except String ℚ :=
  pyPct ((label_count : ℤ) - (storeLen : ℤ)) label_count

/-- One sub-error pair of a download failure: the `error` dict built by
`_download_worker` with optional `label` and `data` messages. -/
structure DlErr where
  label : Option String
  data : Option String
deriving DecidableEq, Repr

/-- The shared result store of a download batch: identity key to `DlErr`. -/
abbrev DStore := List (String × DlErr)

/-- Post-join split of the download store (lines 126-131): collect the
`data` sub-errors. -/
def splitData (s : DStore) : List (String × String) :=
  s.filterMap (fun kv => kv.2.data.map (fun d => (kv.1, d)))

/-- Post-join split of the download store (lines 126-131): collect the
`label` sub-errors. -/
def splitLabel (s : DStore) : List (String × String) :=
  s.filterMap (fun kv => kv.2.label.map (fun d => (kv.1, d)))

/-- `LabelData.download` up to its two summary percentages (lines 111-140).
`probe` is the outcome of the `_count_labels` remote call; `runPages n` is
the joined shared store (`results[0]`) after dispatching `n` page tasks to
the pool.  When the count is 0 no pages are dispatched and both stores are
empty; the summary then divides by `label_count` unconditionally. -/
def downloadSummary (probe : Except String Nat) (runPages : Nat → DStore) :
    Except String (ℚ × ℚ) := do
  let label_count := (countLabels probe).1
  let (data_results, label_results) :=
    if label_count ≠ 0 then
      let store := runPages (pageLength label_count)
      (splitData store, splitLabel store)
    else ([], [])
  let labelPct ← downloadPct label_count label_results.length
  let dataPct ← downloadPct label_count data_results.length
  return (labelPct, dataPct)

/-! ## Per-item task functions -/

/-- The failure-only result store shared by the workers of one batch. -/
abbrev Store := List (String × String)

/-- `_set_error_result` (lines 301-303): `result[key] = message` plus a
structured log line (the log write is an external effect with no bearing on
the store). -/
def setErrorResult (key : String) (result : Store) (message : String) : Store :=
  dictSet result key message

/-- Environment of `_upload_asset`: the single remote call
`spb.run(create_data, asset_image, {projectId})`. -/
structure UploadEnv where
  createData : Except String Unit

/-- `_upload_asset` (lines 240-249).  The whole remote call sits inside
`try/except Exception`; a failure is stringified into the store under the
data key of the asset and nothing is raised. -/
def uploadAsset (env : UploadEnv) (data_key : String) (result : Store) :
    Except String Store :=
  match env.createData with
  | .ok _ => .ok result
  | .error e => .ok (setErrorResult data_key result e)

/-- Label record returned by `describe_label`, with the fields
`_update_label` consumes. -/
structure DescribedLabel where
  id : String
  data_key : String
  dataset : String
  result : Option String
deriving DecidableEq, Repr

/-- Local label JSON file content as consumed by `_update_label`.
`result = none` models an absent `result` key (so the subscript
`json_data[result]` at line 287 raises `KeyError`), `result = some none`
models a null `result`, and `result = some (some v)` a non-null value.
Same convention for `tags`. -/
structure LocalJson where
  result : Option (Option String)
  tags : Option String
deriving DecidableEq, Repr

/-- The update payload built by `_update_label` (lines 278-293). -/
structure UpdatePayload where
  id : String
  project_id : String
  tagsFromLocal : Option String
  tagsFromRemote : List String
  result : Option String
deriving DecidableEq, Repr

/-- Python stringification of the `KeyError` raised by the missing `result`
key: the key name wrapped in single quotes. -/
def keyErrorResultMsg : String := "\x27result\x27"

/-- Environment of `_update_label`: the filesystem and remote collaborators
it calls, in source order. -/
structure SyncEnv where
  fileExists : Bool
  describeLabel : Except String (Option DescribedLabel)
  getTagDatas : Except String (List String)
  readJson : Except String LocalJson
  updateLabel : UpdatePayload → Except String Unit
  writeBack : Except String Unit

/-- Outcome of one `_update_label` run: the store after the task, whether
the remote `update_label` command was issued, and whether the local file
was rewritten. -/
structure SyncOutcome where
  store : Store
  updateCalled : Bool
  fileWritten : Bool
deriving DecidableEq, Repr

/-- Python `split(".")` on the character list of a path: split into the
(always non-empty) list of dot-separated groups. -/
def splitOnDot : List Char → List (List Char)
  | [] => [[]]
  | x :: xs =>
    let rest := splitOnDot xs
    if x = '.' then [] :: rest
    else
      match rest with
      | [] => [[x]]
      | g :: gs => (x :: g) :: gs

/-- Python `".".join(...)` on character lists. -/
def joinDots : List (List Char) → List Char
  | [] => []
  | [g] => g
  | g :: gs => g ++ '.' :: joinDots gs

/-- Line 254: the identity key is the label path with its last dot-group
stripped — split on dots, drop the last group, join with dots. -/
def dataKeyOf (label_path : String) : String :=
  ⟨joinDots (splitOnDot label_path.data).dropLast⟩

/-- Continuation of `_update_label` after the identity check passed
(lines 278-299): build the payload seeded from the described label —
`tag.get_datas(tag)` runs OUTSIDE any `try`, so a fault there propagates —
then the second `try` block: parse the local JSON, return silently when its
`result` is null, record a `KeyError` when the key is absent, otherwise
overlay `result`/`tags`, issue `update_label` and rewrite the local file. -/
def syncPayloadAndUpdate (env : SyncEnv) (data_key project_id : String)
    (dl : DescribedLabel) (result : Store) : Except String SyncOutcome :=
  match env.getTagDatas with
  | .error e => .error e
  | .ok remoteTags =>
    match env.readJson with
    | .error e => .ok ⟨setErrorResult data_key result e, false, false⟩
    | .ok json_data =>
      match json_data.result with
      | none => .ok ⟨setErrorResult data_key result keyErrorResultMsg, false, false⟩
      | some none => .ok ⟨result, false, false⟩
      | some (some rv) =>
        match env.updateLabel
            ⟨dl.id, project_id, json_data.tags, remoteTags, some rv⟩ with
        | .error e => .ok ⟨setErrorResult data_key result e, true, false⟩
        | .ok _ =>
          match env.writeBack with
          | .error e => .ok ⟨setErrorResult data_key result e, true, false⟩
          | .ok _ => .ok ⟨result, true, true⟩

/-- `_update_label` (lines 252-299): missing-file check, describe with its
`try/except`, the identity check of line 271 — a CONJUNCTION: reject only
when `described_label.data_key != data_key` AND
`described_label.dataset != dataset` — then `syncPayloadAndUpdate`. -/
def updateLabelTask (env : SyncEnv) (label_path project_id dataset : String)
    (result : Store) : Except String SyncOutcome :=
  if !env.fileExists then
    .ok ⟨setErrorResult (dataKeyOf label_path) result
          "Label json file is not existed.", false, false⟩
  else
    match env.describeLabel with
    | .error e => .ok ⟨setErrorResult (dataKeyOf label_path) result e, false, false⟩
    | .ok none =>
      .ok ⟨setErrorResult (dataKeyOf label_path) result
            "Label cannot be described.", false, false⟩
    | .ok (some dl) =>
      if dl.data_key ≠ dataKeyOf label_path ∧ dl.dataset ≠ dataset then
        .ok ⟨setErrorResult (dataKeyOf label_path) result
              "Described label does not match to upload.", false, false⟩
      else
        syncPayloadAndUpdate env (dataKeyOf label_path) project_id dl result

/-- A label returned by one `describe_label` page in `_download_worker`. -/
structure DlLabel where
  dataset : String
  data_key : String
deriving DecidableEq, Repr

/-- The store key of a download failure (line 231): the f-string joining
`label.dataset` and the raw `label.data_key` with a slash. -/
def dlKey (l : DlLabel) : String := l.dataset ++ "/" ++ l.data_key

/-- Environment of one `_download_worker` page task. -/
structure PageEnv where
  describePage : Except String (List DlLabel)
  makedirs : DlLabel → Except String Unit
  writeLabelJson : DlLabel → Except String Unit
  fetchData : DlLabel → Except String Unit

/-- The error message of a collaborator outcome, if any. -/
def errOf (r : Except String Unit) : Option String :=
  match r with
  | .ok _ => none
  | .error e => some e

/-- Per-label body of `_download_worker` (lines 208-237): `os.makedirs`
runs OUTSIDE any `try` (line 212), so a fault there propagates; the label
JSON write and the data fetch each sit in their own `try` and their
failures are collected into one `error` dict, stored when non-empty. -/
def processLabel (env : PageEnv) (l : DlLabel) (result : DStore) :
    Except String DStore :=
  match env.makedirs l with
  | .error e => .error e
  | .ok _ =>
    if errOf (env.writeLabelJson l) = none ∧ errOf (env.fetchData l) = none then
      .ok result
    else
      .ok (dictSet result (dlKey l)
            ⟨errOf (env.writeLabelJson l), errOf (env.fetchData l)⟩)

/-- The `for label in labels` loop of `_download_worker` (lines 208-237):
process each label of the page in order; an uncaught fault aborts the loop
and escapes the task. -/
def processPage (env : PageEnv) : List DlLabel → DStore → Except String DStore
  | [], result => .ok result
  | l :: t, result =>
    match processLabel env l result with
    | .error e => .error e
    | .ok s => processPage env t s

/-- `_download_worker` (lines 202-237): the page-describe `spb.run` call
runs OUTSIDE any `try` (lines 205-207), so a fault there propagates to the
pool executor; then each label of the page is processed in order. -/
def downloadWorker (env : PageEnv) (result : DStore) : Except String DStore :=
  match env.describePage with
  | .error e => .error e
  | .ok labels => processPage env labels result

/-! ## Error table merge and paginated reporter (`LabelData._print_error_table`) -/

/-- One merged row: the per-key dict with `data` and `label` entries built
in lines 144-157; `none` models Python `None`. -/
structure Row where
  data : Option String
  label : Option String
deriving DecidableEq, Repr

/-- Data loop body (lines 148-151): set the row of `key` to a dict holding
the data error and a `None` label error. -/
def mergeDataStep (acc : List (String × Row)) (k dv : String) : List (String × Row) :=
  dictSet acc k ⟨some dv, none⟩

/-- In-place mutation of the `label` entry of the row of `k`, keeping the
rest of the dict untouched (the Python row-dict assignment). -/
def setRowLabel (lv k : String) (m : List (String × Row)) : List (String × Row) :=
  m.map (fun p => if p.1 = k then (p.1, ⟨p.2.data, some lv⟩) else p)

/-- Label loop body (lines 153-157): mutate the existing row when the key
is already present, insert a label-only row otherwise. -/
def mergeLabelStep (acc : List (String × Row)) (k lv : String) : List (String × Row) :=
  if k ∈ keysOf acc then setRowLabel lv k acc
  else acc ++ [(k, ⟨none, some lv⟩)]

/-- The merge of lines 144-157: first all data errors, then all label
errors, folding in dict iteration order. -/
def mergeResults (data_results label_results : Store) : List (String × Row) :=
  label_results.foldl (fun acc kv => mergeLabelStep acc kv.1 kv.2)
    (data_results.foldl (fun acc kv => mergeDataStep acc kv.1 kv.2) [])

/-- Python truthiness test `not next(iter(results), None)` (lines 159 and
188): true when the dict is empty or its first key is the empty string. -/
def falsyHead {a : Type} (m : List (String × a)) : Bool :=
  match m with
  | [] => true
  | (k, _) :: _ => k = ""

/-- Observable events of one `_print_error_table` invocation. -/
inductive Ev
  | table (rows : List (String × Row))
  | prompt
  | logPointers
deriving DecidableEq, Repr

/-- The inner `for _ in range(10)` loop (lines 172-186): pop up to `n` rows
from the front of the working dict, stopping early at a falsy key. -/
def takeRows : Nat → List (String × Row) → List (String × Row) × List (String × Row)
  | 0, rest => ([], rest)
  | _ + 1, [] => ([], [])
  | n + 1, (k, r) :: t =>
    if k = "" then ([], (k, r) :: t)
    else
      let taken := takeRows n t
      ((k, r) :: taken.1, taken.2)

theorem takeRows_snd_length_le (n : Nat) (m : List (String × Row)) :
    (takeRows n m).2.length ≤ m.length := by
  induction n generalizing m with
  | zero => simp [takeRows]
  | succ n ih =>
    cases m with
    | nil => simp [takeRows]
    | cons p t =>
      obtain ⟨k, r⟩ := p
      by_cases h : k = ""
      · simp [takeRows, h]
      · simpa [takeRows, h] using Nat.le_succ_of_le (ih t)

/-- The `while True` loop of lines 164-195: print one page, stop when the
working dict is exhausted (or its next key is falsy), otherwise prompt;
`keys` is the stream of operator key presses and a `q`/`Q` aborts. -/
def reportLoop (rows : List (String × Row)) (keys : Nat → Char) (i : Nat) :
    List Ev :=
  Ev.table (takeRows 10 rows).1 ::
    (if falsyHead (takeRows 10 rows).2 then []
     else
       Ev.prompt ::
         (if keys i = 'q' ∨ keys i = 'Q' then []
          else reportLoop (takeRows 10 rows).2 keys (i + 1)))
termination_by rows.length
decreasing_by
  rename_i hfalsy _
  cases hm : rows with
  | nil => rw [hm] at hfalsy; simp [takeRows, falsyHead] at hfalsy
  | cons p t =>
    obtain ⟨k, r⟩ := p
    by_cases hk : k = ""
    · rw [hm, hk] at hfalsy
      simp [takeRows, falsyHead] at hfalsy
    · have h2 : (takeRows 10 ((k, r) :: t)).2 = (takeRows 9 t).2 := by
        simp [takeRows, hk]
      rw [h2, List.length_cons]
      exact Nat.lt_succ_of_le (takeRows_snd_length_le 9 t)

/-- `_print_error_table` (lines 144-198): merge the one or two stores,
return immediately when the merged dict tests falsy (line 159-160: no
table AND no log pointers), otherwise run the paging loop and conclude
with the log-location block (lines 196-198). -/
def printErrorTable (data_results label_results : Store) (keys : Nat → Char) :
    List Ev :=
  let results := mergeResults data_results label_results
  if falsyHead results then []
  else reportLoop results keys 0 ++ [Ev.logPointers]

/-! ## Shared result structure `manager.list([manager.dict()] * n)`

Lines 45, 57, 83 and 119 build the per-batch result structure as
`manager.list([manager.dict()] * n)`.  `manager.dict()` allocates ONE
proxy to a shared mapping; the Python list-repetition `[d] * n` copies the
reference, not the mapping, so every element of the managed list aliases
the same shared dict.  We model the manager heap explicitly: a list of
dict cells addressed by index, with `manager.dict()` allocating a fresh
cell and `[d] * n` replicating its address. -/

/-- The manager heap: one dict cell per allocation, addressed by index. -/
structure MHeap (a : Type) where
  cells : List (List (String × a))

/-- `manager.dict()`: allocate a fresh empty shared dict, returning its
address. -/
def allocDict {a : Type} (h : MHeap a) : MHeap a × Nat :=
  (⟨h.cells ++ [[]]⟩, h.cells.length)

/-- Read the dict cell at an address (`results[i]` dereferences the proxy). -/
def heapRead {a : Type} (h : MHeap a) (addr : Nat) : List (String × a) :=
  h.cells.getD addr []

/-- A worker write `results[i][key] = value` through the proxy at `addr`. -/
def heapWrite {a : Type} (h : MHeap a) (addr : Nat) (k : String) (v : a) :
    MHeap a :=
  ⟨h.cells.set addr (dictSet (heapRead h addr) k v)⟩

/-- `[manager.dict()] * n` evaluated against the empty manager heap: one
allocation at address 0, replicated `n` times. -/
def sharedResults (a : Type) (n : Nat) : MHeap a × List Nat :=
  let alloc := allocDict (⟨[]⟩ : MHeap a)
  (alloc.1, List.replicate n alloc.2)

/-- Worker `i` of the batch performs its writes through the proxy it was
handed (`results[i]`). -/
def runWorker {a : Type} (h : MHeap a) (addr : Nat) (ws : List (String × a)) :
    MHeap a :=
  ws.foldl (fun hh kv => heapWrite hh addr kv.1 kv.2) h

/-- Run a whole batch: worker `i` gets element `i` of the shared list and
performs its write set `wss[i]`; the pool joins after all workers ran. -/
def runBatch {a : Type} (wss : List (List (String × a))) : MHeap a :=
  let shared := sharedResults a wss.length
  ((wss.zip shared.2).foldl (fun h p => runWorker h p.2 p.1) shared.1)

/-- What the summary code reads after the join: `results[0]`. -/
def readIndexZero {a : Type} (wss : List (List (String × a))) : List (String × a) :=
  heapRead (runBatch wss) ((sharedResults a wss.length).2.getD 0 0)

/-! # Claims -/

/-- C6: for every non-negative total with page size 10 the download driver
computes the ceiling of total over page size: `pageLength` equals
`(n + 9) / 10`, it is the exact ceiling (it dominates `n` and overshoots by
less than one page), it adds one to the floored quotient exactly when the
remainder is non-zero, and the examples of the spec hold: 25 labels give 3
pages and 20 labels give 2 pages, not 3. -/
theorem pageLength_is_ceil (n : Nat) :
    pageLength n = (n + LABEL_DESCRIBE_PAGE_SIZE - 1) / LABEL_DESCRIBE_PAGE_SIZE ∧
    n ≤ LABEL_DESCRIBE_PAGE_SIZE * pageLength n ∧
    LABEL_DESCRIBE_PAGE_SIZE * pageLength n < n + LABEL_DESCRIBE_PAGE_SIZE ∧
    pageLength n = n / LABEL_DESCRIBE_PAGE_SIZE +
      (if n % LABEL_DESCRIBE_PAGE_SIZE = 0 then 0 else 1) ∧
    pageLength 25 = 3 ∧ pageLength 20 = 2 := by
  refine ⟨?_, ?_, ?_, ?_, by decide, by decide⟩ <;>
    · unfold pageLength LABEL_DESCRIBE_PAGE_SIZE
      split <;> omega

/-- C2: the upload summaries report 100 percent whenever the error store is
empty, but the download summary (lines 136-140) divides by the label count
with no guard: a download whose probe reports 0 labels raises
`ZeroDivisionError` instead of reporting the specified 100 percent. -/
theorem empty_store_pct_and_download_zero_division :
    (∀ total, uploadDataPct total 0 = .ok 100) ∧
    (∀ total, uploadLabelPct total 0 = .ok 100) ∧
    (∀ runPages, downloadSummary (.ok 0) runPages = .error "ZeroDivisionError") := by
  refine ⟨fun total => rfl, fun total => ?_, fun runPages => rfl⟩
  unfold uploadLabelPct pyPct
  rcases Nat.eq_zero_or_pos total with h | h
  · simp [h]
  · have h0 : total ≠ 0 := Nat.pos_iff_ne_zero.mp h
    have hq : ((total : ℤ) : ℚ) ≠ 0 := by
      exact_mod_cast fun hc => h0 (by exact_mod_cast hc)
    simp only [h0, if_true, if_false, ne_eq, not_false_iff]
    congr 1
    have harg : ((((total : ℤ) - ((0 : ℕ) : ℤ)) : ℤ) : ℚ) / ((total : ℕ) : ℚ) * 100 = 100 := by
      push_cast
      field_simp
    rw [harg]
    unfold roundTo2
    norm_num

/-- C3: `_count_labels` swallows a probe failure, logs it and falls back to
a count of 0 (so zero pages are dispatched) and the probe failure itself is
never re-raised — but the claim that the batch then proceeds non-fatally is
wrong: with the count forced to 0 the summary of `download` divides by zero
and the run dies with `ZeroDivisionError`. -/
theorem probe_failure_swallowed_but_summary_crashes :
    (∀ e, countLabels (.error e) = (0, true)) ∧
    (∀ n, countLabels (.ok n) = (n, false)) ∧
    pageLength 0 = 0 ∧
    (∀ e runPages, downloadSummary (.error e) runPages = .error "ZeroDivisionError") := by
  exact ⟨fun e => rfl, fun n => rfl, rfl, fun e runPages => rfl⟩

/-- Split of `_update_label` at the line-271 identity check: with the file
present and the describe call returning one label, the task either rejects
(both fields differ) or runs the post-check body. -/
theorem updateLabelTask_check_split (env : SyncEnv)
    (lp pid ds : String) (store : Store) (dl : DescribedLabel)
    (hfile : env.fileExists = true)
    (hdesc : env.describeLabel = .ok (some dl)) :
    (dl.data_key ≠ dataKeyOf lp ∧ dl.dataset ≠ ds →
      updateLabelTask env lp pid ds store =
        .ok ⟨setErrorResult (dataKeyOf lp) store
               "Described label does not match to upload.", false, false⟩) ∧
    (¬(dl.data_key ≠ dataKeyOf lp ∧ dl.dataset ≠ ds) →
      updateLabelTask env lp pid ds store =
        syncPayloadAndUpdate env (dataKeyOf lp) pid dl store) := by
  unfold updateLabelTask
  rw [hdesc, hfile]
  constructor <;> intro h <;> simp [h]

/-- C4: the identity check of line 271 rejects with the mismatch message
exactly when the described label differs from the request in BOTH the data
key and the dataset (and then stops without calling update or rewriting the
file); when at most one of the two fields differs the task is not rejected
by this check and continues with the post-check body. -/
theorem identity_check_needs_both_mismatch (env : SyncEnv)
    (lp pid ds : String) (store : Store) (dl : DescribedLabel)
    (hfile : env.fileExists = true)
    (hdesc : env.describeLabel = .ok (some dl)) :
    (dl.data_key ≠ dataKeyOf lp ∧ dl.dataset ≠ ds →
      updateLabelTask env lp pid ds store =
        .ok ⟨setErrorResult (dataKeyOf lp) store
               "Described label does not match to upload.", false, false⟩) ∧
    (¬(dl.data_key ≠ dataKeyOf lp ∧ dl.dataset ≠ ds) →
      updateLabelTask env lp pid ds store =
        syncPayloadAndUpdate env (dataKeyOf lp) pid dl store) :=
  updateLabelTask_check_split env lp pid ds store dl hfile hdesc

/-- The environment of a label-sync run whose described label differs from
the requested dataset but matches the requested data key. -/
def syncEnvOneField : SyncEnv :=
  ⟨true, .ok (some ⟨"id1", "a", "otherDataset", some "r"⟩), .ok [],
    .ok ⟨some (some "rv"), none⟩, fun _ => .ok (), .ok ()⟩

/-- C4 witness: with only the dataset differing, the task is not rejected
by the identity check and proceeds to the post-check body. -/
theorem identity_check_needs_both_mismatch_witness :
    updateLabelTask syncEnvOneField "a.json" "p" "ds" [] =
      syncPayloadAndUpdate syncEnvOneField (dataKeyOf "a.json") "p"
        ⟨"id1", "a", "otherDataset", some "r"⟩ [] :=
  (identity_check_needs_both_mismatch syncEnvOneField "a.json" "p" "ds" []
      ⟨"id1", "a", "otherDataset", some "r"⟩ rfl rfl).2 (by decide)

/-- The environment of a label-sync run whose local JSON parses but has no
`result` key at all. -/
def syncEnvAbsent : SyncEnv :=
  ⟨true, .ok (some ⟨"id1", "a", "ds", some "r"⟩), .ok [],
    .ok ⟨none, none⟩, fun _ => .ok (), .ok ()⟩

/-- C5 counterexample: with the `result` key ABSENT from the parsed local
JSON the task is not a silent no-op — the subscript raises `KeyError`,
which the broad handler turns into an ErrorRecord, so the store is not left
empty. -/
theorem absent_result_records_error :
    updateLabelTask syncEnvAbsent "a.json" "p" "ds" [] =
      .ok ⟨[("a", keyErrorResultMsg)], false, false⟩ ∧
    updateLabelTask syncEnvAbsent "a.json" "p" "ds" [] ≠
      .ok ⟨[], false, false⟩ := by
  constructor
  · rfl
  · intro h
    rw [show updateLabelTask syncEnvAbsent "a.json" "p" "ds" [] =
          .ok ⟨[("a", keyErrorResultMsg)], false, false⟩ from rfl] at h
    simp at h

/-- C5 amended: a parsed local JSON whose `result` field is null makes the
task skip silently (store untouched, no update call, no rewrite); a parsed
local JSON with NO `result` key makes the task record the stringified
`KeyError` as an ErrorRecord — still with no update call and no rewrite. -/
theorem null_result_noop_absent_records (env : SyncEnv)
    (lp pid ds : String) (store : Store) (dl : DescribedLabel)
    (tg : Option String) (ts : List String)
    (hfile : env.fileExists = true)
    (hdesc : env.describeLabel = .ok (some dl))
    (hmatch : ¬(dl.data_key ≠ dataKeyOf lp ∧ dl.dataset ≠ ds))
    (htags : env.getTagDatas = .ok ts) :
    (env.readJson = .ok ⟨some none, tg⟩ →
      updateLabelTask env lp pid ds store = .ok ⟨store, false, false⟩) ∧
    (env.readJson = .ok ⟨none, tg⟩ →
      updateLabelTask env lp pid ds store =
        .ok ⟨setErrorResult (dataKeyOf lp) store keyErrorResultMsg,
              false, false⟩) := by
  have hcont := (updateLabelTask_check_split env lp pid ds store dl
    hfile hdesc).2 hmatch
  constructor <;> intro hjson <;>
    rw [hcont] <;> unfold syncPayloadAndUpdate <;> rw [htags, hjson]

/-- The environment of a label-sync run whose local JSON has a null
`result`. -/
def syncEnvNull : SyncEnv :=
  ⟨true, .ok (some ⟨"id1", "a", "ds", some "r"⟩), .ok [],
    .ok ⟨some none, none⟩, fun _ => .ok (), .ok ()⟩

/-- C5 witness: a concrete run with a null local `result` leaves the store
empty, calls no update and rewrites no file. -/
theorem null_result_noop_absent_records_witness :
    updateLabelTask syncEnvNull "a.json" "p" "ds" [] = .ok ⟨[], false, false⟩ :=
  (null_result_noop_absent_records syncEnvNull "a.json" "p" "ds" []
      ⟨"id1", "a", "ds", some "r"⟩ none [] rfl rfl (by decide) rfl).1 rfl

/-- A faulting `processLabel` comes from the unguarded `os.makedirs` call. -/
theorem processLabel_error (env : PageEnv) (l : DlLabel) (s : DStore)
    (e : String) (h : processLabel env l s = .error e) :
    env.makedirs l = .error e := by
  unfold processLabel at h
  split at h
  · next e' heq =>
    rw [heq]
    exact congrArg Except.error (Except.error.inj h)
  · split at h <;> exact absurd h (by simp)

/-- A faulting page loop comes from the `makedirs` of one of its labels. -/
theorem processPage_error (env : PageEnv) (labels : List DlLabel)
    (s : DStore) (e : String) (h : processPage env labels s = .error e) :
    ∃ l ∈ labels, env.makedirs l = .error e := by
  induction labels generalizing s with
  | nil => exact absurd h (by simp [processPage])
  | cons l t ih =>
    unfold processPage at h
    split at h
    · next e' heq =>
      have he : e' = e := Except.error.inj h
      exact ⟨l, by simp, he ▸ processLabel_error env l s e' heq⟩
    · next s' heq =>
      obtain ⟨l', hl', hm⟩ := ih s' h
      exact ⟨l', List.mem_cons_of_mem l hl', hm⟩

/-- C1 amended: `_upload_asset` catches every fault of its body, and the
guarded regions of the other two tasks never propagate — but the coverage
is not total: a fault of `_update_label` can only escape through the
unguarded tag-extraction step (line 281), and a fault of `_download_worker`
can only escape through the unguarded page-describe call (lines 205-207)
or the unguarded `os.makedirs` of one of the described labels (line 212). -/
theorem task_fault_isolation_amended :
    (∀ env dk store, ∃ s, uploadAsset env dk store = .ok s) ∧
    (∀ env lp pid ds store e, updateLabelTask env lp pid ds store = .error e →
      env.getTagDatas = .error e) ∧
    (∀ env store e, downloadWorker env store = .error e →
      env.describePage = .error e ∨
        ∃ labels, env.describePage = .ok labels ∧
          ∃ l ∈ labels, env.makedirs l = .error e) := by
  refine ⟨fun env dk store => ?_, fun env lp pid ds store e h => ?_,
    fun env store e h => ?_⟩
  · unfold uploadAsset
    rcases env.createData with e | u
    · exact ⟨setErrorResult dk store e, rfl⟩
    · exact ⟨store, rfl⟩
  · unfold updateLabelTask at h
    split at h
    · exact absurd h (by simp)
    · split at h
      · exact absurd h (by simp)
      · exact absurd h (by simp)
      · split at h
        · exact absurd h (by simp)
        · unfold syncPayloadAndUpdate at h
          split at h
          · next e' heq =>
            rw [heq]
            exact congrArg Except.error (Except.error.inj h)
          · split at h
            · exact absurd h (by simp)
            · split at h
              · exact absurd h (by simp)
              · exact absurd h (by simp)
              · split at h
                · exact absurd h (by simp)
                · split at h <;> exact absurd h (by simp)
  · unfold downloadWorker at h
    split at h
    · next e' heq =>
      exact Or.inl (heq.trans (congrArg Except.error (Except.error.inj h)))
    · next labels heq =>
      exact Or.inr ⟨labels, heq, processPage_error env labels store e h⟩

/-- A download page task whose describe call faults. -/
def pageEnvBadDescribe : PageEnv :=
  ⟨.error "boom", fun _ => .ok (), fun _ => .ok (), fun _ => .ok ()⟩

/-- C1 counterexample: a fault raised by the page-describe call inside the
body of the download task is NOT converted into an ErrorRecord — the task
function propagates it to the pool executor. -/
theorem download_describe_fault_propagates :
    downloadWorker pageEnvBadDescribe [] = .error "boom" := rfl

/-- C1 witness: the amended theorem applied to the faulting page task
locates the escape at the describe call. -/
theorem task_fault_isolation_amended_witness :
    pageEnvBadDescribe.describePage = .error "boom" ∨
      ∃ labels, pageEnvBadDescribe.describePage = .ok labels ∧
        ∃ l ∈ labels, pageEnvBadDescribe.makedirs l = .error "boom" :=
  task_fault_isolation_amended.2.2 pageEnvBadDescribe [] "boom" rfl

/-- The data sub-error recorded under `k` by a completed task, if any. -/
def recordedData (r : Except String DStore) (k : String) : Option String :=
  match r with
  | .error _ => none
  | .ok s => (lk s k).bind DlErr.data

/-- The label sub-error recorded under `k` by a completed task, if any. -/
def recordedLabel (r : Except String DStore) (k : String) : Option String :=
  match r with
  | .error _ => none
  | .ok s => (lk s k).bind DlErr.label

/-- C8: in one per-label download step (with the directory creation
succeeding and the key fresh in the store, as identity keys are unique per
batch) the label write and the data fetch are independent: the step always
stores at most one record, under the composite key, whose two sub-kinds
are exactly the respective outcomes of the two operations; moreover the
recorded data sub-error is unchanged when only the label-write behaviour
of the environment changes, and symmetrically for the label sub-error. -/
theorem download_pair_independence (env : PageEnv) (l : DlLabel)
    (store : DStore) (hmk : env.makedirs l = .ok ())
    (hfresh : lk store (dlKey l) = none) :
    (processLabel env l store =
      .ok (if errOf (env.writeLabelJson l) = none ∧ errOf (env.fetchData l) = none
           then store
           else dictSet store (dlKey l)
                  ⟨errOf (env.writeLabelJson l), errOf (env.fetchData l)⟩)) ∧
    (∀ env2 : PageEnv, env2.makedirs l = .ok () →
      env2.fetchData l = env.fetchData l →
      recordedData (processLabel env2 l store) (dlKey l) =
        recordedData (processLabel env l store) (dlKey l)) ∧
    (∀ env2 : PageEnv, env2.makedirs l = .ok () →
      env2.writeLabelJson l = env.writeLabelJson l →
      recordedLabel (processLabel env2 l store) (dlKey l) =
        recordedLabel (processLabel env l store) (dlKey l)) := by
  have hchar : ∀ env3 : PageEnv, env3.makedirs l = .ok () →
      processLabel env3 l store =
        .ok (if errOf (env3.writeLabelJson l) = none ∧ errOf (env3.fetchData l) = none
             then store
             else dictSet store (dlKey l)
                    ⟨errOf (env3.writeLabelJson l), errOf (env3.fetchData l)⟩) := by
    intro env3 hmk3
    unfold processLabel
    rw [hmk3]
    by_cases hc : errOf (env3.writeLabelJson l) = none ∧ errOf (env3.fetchData l) = none <;>
      simp [hc]
  refine ⟨hchar env hmk, fun env2 hmk2 hdata => ?_, fun env2 hmk2 hlabel => ?_⟩
  · rw [hchar env hmk, hchar env2 hmk2, hdata]
    unfold recordedData
    rcases hw2 : errOf (env2.writeLabelJson l) with _ | e2 <;>
      rcases hw : errOf (env.writeLabelJson l) with _ | e1 <;>
      rcases hf : errOf (env.fetchData l) with _ | ef <;>
      simp [hw2, hw, hf, hfresh, lk_dictSet_self]
  · rw [hchar env hmk, hchar env2 hmk2, hlabel]
    unfold recordedLabel
    rcases hw2 : errOf (env2.fetchData l) with _ | e2 <;>
      rcases hw : errOf (env.fetchData l) with _ | e1 <;>
      rcases hf : errOf (env.writeLabelJson l) with _ | ef <;>
      simp [hw2, hw, hf, hfresh, lk_dictSet_self]

/-- A download page environment whose label-JSON write fails but whose
data fetch succeeds. -/
def pageEnvLabelFail : PageEnv :=
  ⟨.ok [⟨"ds", "k1"⟩], fun _ => .ok (), fun _ => .error "disk full",
    fun _ => .ok ()⟩

/-- C8 witness: the characterization applied to a concrete step whose
label write fails — the single stored record carries the label sub-error
and an empty data sub-error. -/
theorem download_pair_independence_witness :
    processLabel pageEnvLabelFail ⟨"ds", "k1"⟩ [] =
      .ok (if errOf (pageEnvLabelFail.writeLabelJson ⟨"ds", "k1"⟩) = none ∧
              errOf (pageEnvLabelFail.fetchData ⟨"ds", "k1"⟩) = none
           then []
           else dictSet [] (dlKey ⟨"ds", "k1"⟩)
                  ⟨errOf (pageEnvLabelFail.writeLabelJson ⟨"ds", "k1"⟩),
                   errOf (pageEnvLabelFail.fetchData ⟨"ds", "k1"⟩)⟩) :=
  (download_pair_independence pageEnvLabelFail ⟨"ds", "k1"⟩ [] rfl rfl).1

/-- C9 counterexample: with both stores empty, `_print_error_table` returns
at line 160 before reaching the log-location block — the invocation prints
nothing at all, in particular NOT the two log pointers. -/
theorem empty_table_prints_no_log_pointers :
    printErrorTable [] [] (fun _ => 'x') = [] ∧
    Ev.logPointers ∉ printErrorTable [] [] (fun _ => 'x') := by
  constructor
  · rfl
  · intro hmem
    rw [show printErrorTable [] [] (fun _ => 'x') = [] from rfl] at hmem
    exact absurd hmem (List.not_mem_nil _)

/-- C9 amended: when the merged dict does not test falsy the reporter
always concludes with the log-pointer block, whatever the operator presses;
when the merged dict tests falsy (in particular when both stores are
empty) the function returns early and prints neither a table nor the log
pointers. -/
theorem report_concludes_with_log_pointers (d l : Store) (keys : Nat → Char) :
    (falsyHead (mergeResults d l) = false →
      (printErrorTable d l keys).getLast? = some Ev.logPointers) ∧
    (falsyHead (mergeResults d l) = true →
      printErrorTable d l keys = []) := by
  constructor <;> intro h <;> simp [printErrorTable, h, List.getLast?_concat]

/-- C9 witness: a run over one data error concludes with the log pointers. -/
theorem report_concludes_with_log_pointers_witness :
    (printErrorTable [("a", "da")] [] (fun _ => 'x')).getLast? =
      some Ev.logPointers :=
  (report_concludes_with_log_pointers [("a", "da")] [] (fun _ => 'x')).1 rfl

/-- A worker acting on the single-cell heap folds its writes into the cell. -/
theorem runWorker_single {a : Type} (c : List (String × a))
    (ws : List (String × a)) :
    runWorker (⟨[c]⟩ : MHeap a) 0 ws =
      ⟨[ws.foldl (fun m kv => dictSet m kv.1 kv.2) c]⟩ := by
  induction ws generalizing c with
  | nil => rfl
  | cons kv t ih =>
    unfold runWorker at ih ⊢
    rw [List.foldl_cons, List.foldl_cons,
      show heapWrite (⟨[c]⟩ : MHeap a) 0 kv.1 kv.2 = ⟨[dictSet c kv.1 kv.2]⟩ from rfl]
    exact ih (dictSet c kv.1 kv.2)

/-- All workers write through address 0, so the batch is one nested fold
into the single shared cell. -/
theorem zipReplicate_foldl {a : Type} (wss : List (List (String × a)))
    (c : List (String × a)) :
    ((wss.zip (List.replicate wss.length 0)).foldl
        (fun h p => runWorker h p.2 p.1) (⟨[c]⟩ : MHeap a)) =
      ⟨[wss.foldl (fun cc ws => ws.foldl (fun m kv => dictSet m kv.1 kv.2) cc) c]⟩ := by
  induction wss generalizing c with
  | nil => rfl
  | cons ws t ih =>
    simp only [List.length_cons, List.replicate_succ, List.zip_cons_cons,
      List.foldl_cons]
    rw [runWorker_single]
    exact ih _

/-- `runBatch` leaves exactly one cell: the union fold of all write sets. -/
theorem runBatch_single {a : Type} (wss : List (List (String × a))) :
    runBatch wss =
      ⟨[wss.foldl (fun cc ws => ws.foldl (fun m kv => dictSet m kv.1 kv.2) cc) []]⟩ :=
  zipReplicate_foldl wss []

/-- Reading `results[0]` after the join yields the nested union fold. -/
theorem readIndexZero_eq {a : Type} (wss : List (List (String × a))) :
    readIndexZero wss =
      wss.foldl (fun cc ws => ws.foldl (fun m kv => dictSet m kv.1 kv.2) cc) [] := by
  unfold readIndexZero
  rw [runBatch_single]
  cases wss <;> rfl

/-- Key membership in a single-dict write fold. -/
theorem mem_keysOf_dictFold {a : Type} (ws : List (String × a))
    (c : List (String × a)) (k : String) :
    k ∈ keysOf (ws.foldl (fun m kv => dictSet m kv.1 kv.2) c) ↔
      k ∈ keysOf c ∨ k ∈ keysOf ws := by
  induction ws generalizing c with
  | nil => simp
  | cons kv t ih =>
    rw [List.foldl_cons, ih, mem_keysOf_dictSet]
    simp [or_assoc, or_comm, or_left_comm]

/-- Key membership in the nested batch fold. -/
theorem mem_keysOf_batchFold {a : Type} (wss : List (List (String × a)))
    (c : List (String × a)) (k : String) :
    k ∈ keysOf (wss.foldl (fun cc ws => ws.foldl (fun m kv => dictSet m kv.1 kv.2) cc) c) ↔
      k ∈ keysOf c ∨ ∃ ws ∈ wss, k ∈ keysOf ws := by
  induction wss generalizing c with
  | nil => simp
  | cons ws t ih =>
    rw [List.foldl_cons, ih, mem_keysOf_dictFold]
    constructor
    · rintro ((hc | hw) | ⟨w, hwmem, hk⟩)
      · exact Or.inl hc
      · exact Or.inr ⟨ws, by simp, hw⟩
      · exact Or.inr ⟨w, by simp [hwmem], hk⟩
    · rintro (hc | ⟨w, hwmem, hk⟩)
      · exact Or.inl (Or.inl hc)
      · rcases List.mem_cons.mp hwmem with rfl | hmem
        · exact Or.inl (Or.inr hk)
        · exact Or.inr ⟨w, hmem, hk⟩

/-- C10: the result structure handed to the pool is built as the managed
list of `n` copies of ONE allocated shared dict, so every element is the
address of the same mapping; consequently, once the pool has joined, a key
is in `results[0]` exactly when some worker of the batch wrote it — reading
only index 0 loses no failure. -/
theorem shared_results_alias_index_zero (a : Type)
    (wss : List (List (String × a))) :
    (∀ addr ∈ (sharedResults a wss.length).2, addr = 0) ∧
    (∀ k, k ∈ keysOf (readIndexZero wss) ↔ ∃ ws ∈ wss, k ∈ keysOf ws) := by
  constructor
  · intro addr hmem
    exact List.eq_of_mem_replicate hmem
  · intro k
    rw [readIndexZero_eq, mem_keysOf_batchFold]
    simp

/-- C10 witness: a two-worker batch whose writes both surface at index 0. -/
theorem shared_results_alias_index_zero_witness :
    (0 : Nat) = 0 ∧
    ("k1" ∈ keysOf (readIndexZero [[("k1", "e1")], [("k2", "e2")]]) ↔
      ∃ ws ∈ [[("k1", "e1")], [("k2", "e2")]], "k1" ∈ keysOf ws) :=
  ⟨(shared_results_alias_index_zero String [[("k1", "e1")], [("k2", "e2")]]).1
      0 (by decide),
   (shared_results_alias_index_zero String [[("k1", "e1")], [("k2", "e2")]]).2 "k1"⟩

/-! ### Merge lemmas for C7 -/

theorem keysOf_setRowLabel (lv k : String) (m : List (String × Row)) :
    keysOf (setRowLabel lv k m) = keysOf m := by
  induction m with
  | nil => rfl
  | cons p t ih =>
    by_cases h : p.1 = k <;> simp [setRowLabel, h] <;>
      simpa [setRowLabel] using ih

theorem lk_setRowLabel_self (lv k : String) (m : List (String × Row)) :
    lk (setRowLabel lv k m) k = (lk m k).map (fun r => ⟨r.data, some lv⟩) := by
  induction m with
  | nil => simp [setRowLabel]
  | cons p t ih =>
    obtain ⟨k0, v0⟩ := p
    by_cases h : k0 = k
    · subst h
      simp [setRowLabel, lk_cons]
    · simpa [setRowLabel, lk_cons, h] using ih

theorem lk_setRowLabel_ne (lv k k' : String) (m : List (String × Row))
    (h : k' ≠ k) :
    lk (setRowLabel lv k m) k' = lk m k' := by
  induction m with
  | nil => simp [setRowLabel]
  | cons p t ih =>
    obtain ⟨k0, v0⟩ := p
    by_cases h0 : k0 = k
    · subst h0
      simpa [setRowLabel, lk_cons, Ne.symm h] using ih
    · by_cases h1 : k0 = k'
      · subst h1
        simp [setRowLabel, lk_cons, h0]
      · simpa [setRowLabel, lk_cons, h0, h1] using ih

theorem keysOf_mergeLabelStep (acc : List (String × Row)) (k lv : String) :
    keysOf (mergeLabelStep acc k lv) =
      if k ∈ keysOf acc then keysOf acc else keysOf acc ++ [k] := by
  unfold mergeLabelStep
  split
  · next h => simp [h, keysOf_setRowLabel]
  · next h => simp [h]

theorem mem_keysOf_mergeLabelStep (acc : List (String × Row)) (k k' lv : String) :
    k' ∈ keysOf (mergeLabelStep acc k lv) ↔ k' ∈ keysOf acc ∨ k' = k := by
  rw [keysOf_mergeLabelStep]
  split
  · next h =>
    constructor
    · exact Or.inl
    · rintro (h' | rfl)
      · exact h'
      · exact h
  · simp

theorem nodup_keysOf_mergeLabelStep (acc : List (String × Row)) (k lv : String)
    (h : (keysOf acc).Nodup) : (keysOf (mergeLabelStep acc k lv)).Nodup := by
  rw [keysOf_mergeLabelStep]
  split
  · exact h
  · next hmem => simpa [List.nodup_append] using ⟨h, hmem⟩

theorem length_mergeLabelStep (acc : List (String × Row)) (k lv : String) :
    (mergeLabelStep acc k lv).length =
      if k ∈ keysOf acc then acc.length else acc.length + 1 := by
  unfold mergeLabelStep
  split
  · next h => simp [h, setRowLabel]
  · next h => simp [h]

theorem lk_mergeLabelStep_self (acc : List (String × Row)) (k lv : String) :
    lk (mergeLabelStep acc k lv) k =
      some (match lk acc k with
            | some r => ⟨r.data, some lv⟩
            | none => ⟨none, some lv⟩) := by
  unfold mergeLabelStep
  split
  · next hmem =>
    rw [lk_setRowLabel_self]
    rcases hr : lk acc k with _ | r
    · exact absurd ((lk_eq_none_iff acc k).mp hr) (by simpa using hmem)
    · simp
  · next hmem =>
    rw [lk_append, (lk_eq_none_iff acc k).mpr hmem]
    simp [lk_cons]

theorem lk_mergeLabelStep_ne (acc : List (String × Row)) (k k' lv : String)
    (h : k' ≠ k) : lk (mergeLabelStep acc k lv) k' = lk acc k' := by
  unfold mergeLabelStep
  split
  · exact lk_setRowLabel_ne lv k k' acc h
  · rw [lk_append]
    rcases h' : lk acc k' with _ | v'
    · simp [lk_cons, Ne.symm h]
    · simp

theorem mem_keysOf_dataFold (d : Store) (acc : List (String × Row)) (k : String) :
    k ∈ keysOf (d.foldl (fun acc kv => mergeDataStep acc kv.1 kv.2) acc) ↔
      k ∈ keysOf acc ∨ k ∈ keysOf d := by
  induction d generalizing acc with
  | nil => simp
  | cons kv t ih =>
    rw [List.foldl_cons, ih, mergeDataStep, mem_keysOf_dictSet]
    simp [or_assoc, or_comm, or_left_comm]

theorem nodup_keysOf_dataFold (d : Store) (acc : List (String × Row))
    (hacc : (keysOf acc).Nodup) :
    (keysOf (d.foldl (fun acc kv => mergeDataStep acc kv.1 kv.2) acc)).Nodup := by
  induction d generalizing acc with
  | nil => exact hacc
  | cons kv t ih =>
    rw [List.foldl_cons]
    exact ih _ (nodup_keysOf_dictSet _ _ _ hacc)

theorem lk_dataFold (d : Store) (acc : List (String × Row)) (k : String)
    (hd : (keysOf d).Nodup) :
    lk (d.foldl (fun acc kv => mergeDataStep acc kv.1 kv.2) acc) k =
      match lk d k with
      | some dv => some ⟨some dv, none⟩
      | none => lk acc k := by
  induction d generalizing acc with
  | nil => simp
  | cons p t ih =>
    obtain ⟨k0, v0⟩ := p
    have hnod := List.nodup_cons.mp (by simpa using hd)
    by_cases hk : k0 = k
    · subst hk
      rw [List.foldl_cons, ih _ hnod.2, (lk_eq_none_iff t k0).mpr hnod.1]
      simp [lk_cons, mergeDataStep, lk_dictSet_self]
    · rw [List.foldl_cons, ih _ hnod.2, lk_cons, if_neg hk]
      cases hlk : lk t k
      · simp [mergeDataStep, lk_dictSet_ne _ _ _ _ (fun he => hk he.symm)]
      · simp

theorem length_dataFold (d : Store) (acc : List (String × Row))
    (hd : (keysOf d).Nodup) (hdisj : ∀ k ∈ keysOf d, k ∉ keysOf acc) :
    (d.foldl (fun acc kv => mergeDataStep acc kv.1 kv.2) acc).length =
      acc.length + d.length := by
  induction d generalizing acc with
  | nil => simp
  | cons p t ih =>
    obtain ⟨k0, v0⟩ := p
    have hnod := List.nodup_cons.mp (by simpa using hd)
    have h0 : k0 ∉ keysOf acc := hdisj k0 (by simp)
    rw [List.foldl_cons, ih _ hnod.2]
    · rw [mergeDataStep, length_dictSet, if_neg h0]
      simp only [List.length_cons]
      omega
    · intro k hk
      rw [mergeDataStep, mem_keysOf_dictSet]
      rintro (hmem | rfl)
      · exact hdisj k (by simp [hk]) hmem
      · exact hnod.1 hk

theorem mem_keysOf_labelFold (l : Store) (acc : List (String × Row)) (k : String) :
    k ∈ keysOf (l.foldl (fun acc kv => mergeLabelStep acc kv.1 kv.2) acc) ↔
      k ∈ keysOf acc ∨ k ∈ keysOf l := by
  induction l generalizing acc with
  | nil => simp
  | cons kv t ih =>
    rw [List.foldl_cons, ih, mem_keysOf_mergeLabelStep]
    simp [or_assoc, or_comm, or_left_comm]

theorem nodup_keysOf_labelFold (l : Store) (acc : List (String × Row))
    (hacc : (keysOf acc).Nodup) :
    (keysOf (l.foldl (fun acc kv => mergeLabelStep acc kv.1 kv.2) acc)).Nodup := by
  induction l generalizing acc with
  | nil => exact hacc
  | cons kv t ih =>
    rw [List.foldl_cons]
    exact ih _ (nodup_keysOf_mergeLabelStep _ _ _ hacc)

theorem lk_labelFold (l : Store) (acc : List (String × Row)) (k : String)
    (hl : (keysOf l).Nodup) :
    lk (l.foldl (fun acc kv => mergeLabelStep acc kv.1 kv.2) acc) k =
      match lk l k with
      | some lv => some (match lk acc k with
                         | some r => ⟨r.data, some lv⟩
                         | none => ⟨none, some lv⟩)
      | none => lk acc k := by
  induction l generalizing acc with
  | nil => simp
  | cons p t ih =>
    obtain ⟨k0, v0⟩ := p
    have hnod := List.nodup_cons.mp (by simpa using hl)
    by_cases hk : k0 = k
    · subst hk
      rw [List.foldl_cons, ih _ hnod.2, (lk_eq_none_iff t k0).mpr hnod.1]
      simp [lk_cons, lk_mergeLabelStep_self]
    · rw [List.foldl_cons, ih _ hnod.2, lk_cons, if_neg hk]
      cases hlk : lk t k
      · simp [lk_mergeLabelStep_ne _ _ _ _ (fun he => hk he.symm)]
      · rw [lk_mergeLabelStep_ne acc k0 k v0 (fun he => hk he.symm)]

theorem length_labelFold (l : Store) (acc : List (String × Row))
    (hl : (keysOf l).Nodup) (hdisj : ∀ k ∈ keysOf l, k ∉ keysOf acc) :
    (l.foldl (fun acc kv => mergeLabelStep acc kv.1 kv.2) acc).length =
      acc.length + l.length := by
  induction l generalizing acc with
  | nil => simp
  | cons p t ih =>
    obtain ⟨k0, v0⟩ := p
    have hnod := List.nodup_cons.mp (by simpa using hl)
    have h0 : k0 ∉ keysOf acc := hdisj k0 (by simp)
    rw [List.foldl_cons, ih _ hnod.2]
    · rw [length_mergeLabelStep, if_neg h0]
      simp only [List.length_cons]
      omega
    · intro k hk
      rw [mem_keysOf_mergeLabelStep]
      rintro (hmem | rfl)
      · exact hdisj k (by simp [hk]) hmem
      · exact hnod.1 hk

/-- In a dict with no duplicate keys, membership of a pair determines the
lookup of its key. -/
theorem lk_of_mem_nodup {a : Type} (m : List (String × a))
    (hm : (keysOf m).Nodup) (p : String × a) (hp : p ∈ m) :
    lk m p.1 = some p.2 := by
  induction m with
  | nil => cases hp
  | cons q t ih =>
    obtain ⟨qk, qv⟩ := q
    have hnod := List.nodup_cons.mp (by simpa using hm)
    rcases List.mem_cons.mp hp with rfl | hmem
    · simp [lk_cons]
    · have hne : qk ≠ p.1 := by
        intro he
        exact hnod.1 (he ▸ List.mem_map_of_mem Prod.fst hmem)
      simp [lk_cons, hne, ih hnod.2 hmem]

/-- C7: the merge of lines 144-157 over two stores with unique keys has
exactly one row per key of the union of the two key sets; a key failing in
both stores yields one row carrying both sub-errors; and for disjoint key
sets the table has exactly the sum of the two store sizes as rows, each
carrying exactly one populated sub-error. -/
theorem merged_table_union (d l : Store)
    (hd : (keysOf d).Nodup) (hl : (keysOf l).Nodup) :
    ((keysOf (mergeResults d l)).Nodup ∧
      ∀ k, k ∈ keysOf (mergeResults d l) ↔ k ∈ keysOf d ∨ k ∈ keysOf l) ∧
    (∀ k dv lv, lk d k = some dv → lk l k = some lv →
      lk (mergeResults d l) k = some ⟨some dv, some lv⟩) ∧
    ((∀ k ∈ keysOf d, k ∉ keysOf l) →
      (mergeResults d l).length = d.length + l.length ∧
      ∀ p ∈ mergeResults d l,
        (p.2.data.isSome ∧ p.2.label = none) ∨
        (p.2.data = none ∧ p.2.label.isSome)) := by
  have hnodupD := nodup_keysOf_dataFold d [] (by simp)
  have hnodupM : (keysOf (mergeResults d l)).Nodup :=
    nodup_keysOf_labelFold l _ hnodupD
  have hmem : ∀ k, k ∈ keysOf (mergeResults d l) ↔ k ∈ keysOf d ∨ k ∈ keysOf l := by
    intro k
    rw [mergeResults, mem_keysOf_labelFold, mem_keysOf_dataFold]
    simp
  refine ⟨⟨hnodupM, hmem⟩, fun k dv lv hdk hlk => ?_, fun hdisj => ?_⟩
  · rw [mergeResults, lk_labelFold l _ k hl, hlk, lk_dataFold d [] k hd, hdk]
  · have hdisjD : ∀ k ∈ keysOf l, k ∉ keysOf (d.foldl
        (fun acc kv => mergeDataStep acc kv.1 kv.2) []) := by
      intro k hk hmemD
      rcases (mem_keysOf_dataFold d [] k).mp hmemD with h0 | h0
      · simp at h0
      · exact hdisj k h0 hk
    constructor
    · rw [mergeResults, length_labelFold l _ hl hdisjD,
        length_dataFold d [] hd (by simp)]
      simp only [List.length_nil]
      omega
    · intro p hp
      have hpk : p.1 ∈ keysOf (mergeResults d l) :=
        List.mem_map_of_mem Prod.fst hp
      have hlkp : lk (mergeResults d l) p.1 = some p.2 :=
        lk_of_mem_nodup _ hnodupM p hp
      rcases (hmem p.1).mp hpk with hin | hin
      · have hnotl : p.1 ∉ keysOf l := hdisj p.1 hin
        have hlnone : lk l p.1 = none := (lk_eq_none_iff l p.1).mpr hnotl
        obtain ⟨dv, hdv⟩ := Option.isSome_iff_exists.mp
          ((lk_isSome_iff d p.1).mpr hin)
        rw [mergeResults, lk_labelFold l _ p.1 hl, hlnone,
          lk_dataFold d [] p.1 hd, hdv] at hlkp
        have hp2 : p.2 = ⟨some dv, none⟩ := (Option.some.inj hlkp).symm
        rw [hp2]
        exact Or.inl ⟨rfl, rfl⟩
      · have hnotd : p.1 ∉ keysOf d := fun hd' => hdisj p.1 hd' hin
        have hdnone : lk d p.1 = none := (lk_eq_none_iff d p.1).mpr hnotd
        obtain ⟨lv, hlv⟩ := Option.isSome_iff_exists.mp
          ((lk_isSome_iff l p.1).mpr hin)
        rw [mergeResults, lk_labelFold l _ p.1 hl, hlv,
          lk_dataFold d [] p.1 hd, hdnone] at hlkp
        have hp2 : p.2 = ⟨none, some lv⟩ := (Option.some.inj hlkp).symm
        rw [hp2]
        exact Or.inr ⟨rfl, rfl⟩

/-- C7 witness: a key failing in both stores yields a single row with both
sub-errors populated. -/
theorem merged_table_union_witness :
    lk (mergeResults [("a", "da")] [("a", "la")]) "a" =
      some ⟨some "da", some "la"⟩ :=
  (merged_table_union [("a", "da")] [("a", "la")] (by decide) (by decide)).2.1
    "a" "da" "la" rfl rfl

end SpbCli
